import Mathlib

/-!
Verification of the Room CRUD service of the housecarl repository
(`src/server/app/db.py`, `src/server/app/main.py`).

The service state is the `room` table of the SQLite database, modelled as a
list of `Room` records in rowid (insertion) order.  The storage behaviour
embedded here is the one the source delegates to SQLite:

* `id` is declared `primary_key=True` on an `int` field with no
  `AUTOINCREMENT`, so SQLite assigns a new row the rowid
  `max(existing ids) + 1` (1 on an empty table); such ids can be reused
  after the row holding the maximum id is deleted.
* `name` is declared `unique=True`, so inserting or updating to a name held
  by another row raises an `IntegrityError` at `session.commit()`; the API
  handlers in `main.py` do not catch it, so it propagates unmapped.

Each endpoint of `main.py` is embedded as a pure function from the store
(and its request data) to an `Except` value: `Except.error` carries either
a raised `HTTPException` (status code and detail) or the uncaught storage
`IntegrityError`; `Except.ok` carries the route's declared success status
code together with the resulting store and response body.
-/

/-- A row of the `room` table (`db.py`, class `Room`). -/
structure Room where
  id : Nat
  name : String
deriving DecidableEq, Repr

/-- The `room` table, rows in rowid (insertion) order. -/
abbrev Store := List Room

/-- Outcome of a request: a raised `HTTPException` (status code and detail
string), or the `IntegrityError` that `session.commit()` raises on a
uniqueness violation and that no handler catches. -/
inductive ApiError where
  | http (status : Nat) (detail : String)
  | integrityError
deriving DecidableEq, Repr

/-- A character Python's `str.strip()` removes: the ASCII whitespace
characters and the Unicode space/line separators (Python strips per the
Unicode whitespace property). -/
def isPythonWhitespace (c : Char) : Bool :=
  c == ' ' || c == '\t' || c == '\n' || c == '\r' ||
  c.toNat == 0x0b || c.toNat == 0x0c ||
  (0x1c ≤ c.toNat && c.toNat ≤ 0x1f) ||
  c.toNat == 0x85 || c.toNat == 0xa0 || c.toNat == 0x1680 ||
  (0x2000 ≤ c.toNat && c.toNat ≤ 0x200a) ||
  c.toNat == 0x2028 || c.toNat == 0x2029 ||
  c.toNat == 0x202f || c.toNat == 0x205f || c.toNat == 0x3000

/-- `is_empty_or_whitespace` from `main.py`: `not s.strip()`.  The string
stripped of leading and trailing whitespace is empty exactly when every
character of the string is whitespace (vacuously so for the empty
string). -/
def is_empty_or_whitespace (s : String) : Bool :=
  s.data.all isPythonWhitespace

/-- Largest id currently in the table (0 when empty). -/
def maxId (s : Store) : Nat :=
  s.foldr (fun r m => max r.id m) 0

/-- The id SQLite assigns to the next inserted row: one more than the
largest rowid currently in use. -/
def nextId (s : Store) : Nat :=
  maxId s + 1

/-- `session.get(db.Room, room_id)`: lookup by primary key. -/
def getRoom (s : Store) (room_id : Nat) : Option Room :=
  s.find? (fun r => r.id == room_id)

/-- `GET /api/v1/rooms` (`read_rooms` in `main.py`):
`session.exec(select(db.Room)).all()` — every row, in rowid order. -/
def read_rooms (s : Store) : List Room :=
  s

/-- `GET /api/v1/rooms/{room_id}` (`read_room` in `main.py`): 404 when the
id is absent, otherwise the row. -/
def read_room (s : Store) (room_id : Nat) : Except ApiError Room :=
  match getRoom s room_id with
  | none => .error (.http 404 "Room not found")
  | some room => .ok room

/-- `POST /api/v1/rooms` (`create_room` in `main.py`, route status 201):
422 when the name is empty or whitespace; otherwise the insert commits
unless the unique index on `name` rejects it, in which case the
`IntegrityError` propagates uncaught.  On success returns the new store and
the created row (after `session.refresh`). -/
def create_room (s : Store) (name : String) :
    Except ApiError (Nat × Store × Room) :=
  if is_empty_or_whitespace name then
    .error (.http 422 "Room name cannot be empty or whitespace")
  else if s.any (fun r => r.name == name) then
    .error .integrityError
  else
    let new_room : Room := { id := nextId s, name := name }
    .ok (201, s ++ [new_room], new_room)

/-- `PATCH /api/v1/rooms/{room_id}` (`update_room` in `main.py`, route
status 204): 404 when the id is absent; 422 when a name is provided and is
empty or whitespace; when the name is omitted the patch
(`model_dump(exclude_unset=True)`) is empty and the row is unchanged;
otherwise the name is updated, unless the unique index rejects it at
commit (`IntegrityError`, uncaught). -/
def update_room (s : Store) (room_id : Nat) (name : Option String) :
    Except ApiError (Nat × Store) :=
  match getRoom s room_id with
  | none => .error (.http 404 "Room not found")
  | some _ =>
    match name with
    | none => .ok (204, s)
    | some n =>
      if is_empty_or_whitespace n then
        .error (.http 422 "Room name cannot be empty or whitespace")
      else if s.any (fun r => r.name == n && r.id != room_id) then
        .error .integrityError
      else
        .ok (204, s.map (fun r =>
          if r.id == room_id then { r with name := n } else r))

/-- `DELETE /api/v1/rooms/{room_id}` (`delete_room` in `main.py`, route
status 204): 404 when the id is absent, otherwise the row is removed. -/
def delete_room (s : Store) (room_id : Nat) :
    Except ApiError (Nat × Store) :=
  match getRoom s room_id with
  | none => .error (.http 404 "Room not found")
  | some _ => .ok (204, s.filter (fun r => r.id != room_id))

/-- A request against the service. -/
inductive Op where
  | create (name : String)
  | get (room_id : Nat)
  | list
  | update (room_id : Nat) (name : Option String)
  | delete (room_id : Nat)
deriving DecidableEq, Repr

/-- Effect of one request on the store: a failed request (raised exception)
leaves the table unchanged — the transaction is not committed. -/
def applyOp (s : Store) (op : Op) : Store :=
  match op with
  | .create name =>
    match create_room s name with
    | .ok (_, s', _) => s'
    | .error _ => s
  | .update room_id name =>
    match update_room s room_id name with
    | .ok (_, s') => s'
    | .error _ => s
  | .delete room_id =>
    match delete_room s room_id with
    | .ok (_, s') => s'
    | .error _ => s
  | .get _ => s
  | .list => s

/-- Store reached from the empty table by a sequence of requests. -/
def runOps (ops : List Op) : Store :=
  ops.foldl applyOp []

instance exceptDecEq {ε α : Type} [DecidableEq ε] [DecidableEq α] :
    DecidableEq (Except ε α)
  | .ok a, .ok b =>
    if h : a = b then .isTrue (by rw [h])
    else .isFalse (fun he => h (Except.ok.inj he))
  | .error a, .error b =>
    if h : a = b then .isTrue (by rw [h])
    else .isFalse (fun he => h (Except.error.inj he))
  | .ok _, .error _ => .isFalse (fun he => Except.noConfusion he)
  | .error _, .ok _ => .isFalse (fun he => Except.noConfusion he)

/-- `Except.error (ApiError.http 409 _)`-shaped results: a request that
failed with a mapped ConflictError (HTTP 409). -/
def isConflict409 {α : Type} : Except ApiError α → Bool
  | .error (.http 409 _) => true
  | _ => false

/-! ### Helper lemmas -/

lemma le_maxId_of_mem {s : Store} {r : Room} (h : r ∈ s) : r.id ≤ maxId s := by
  induction s with
  | nil => cases h
  | cons a t ih =>
    rcases List.mem_cons.mp h with rfl | h'
    · exact le_max_left _ _
    · exact le_trans (ih h') (le_max_right _ _)

lemma lt_nextId_of_mem {s : Store} {r : Room} (h : r ∈ s) : r.id < nextId s :=
  Nat.lt_succ_of_le (le_maxId_of_mem h)

lemma find?_id_eq_none {s : Store} {i : Nat} (h : ∀ r ∈ s, r.id ≠ i) :
    s.find? (fun r => r.id == i) = none := by
  rw [List.find?_eq_none]
  intro x hx
  simpa using h x hx

lemma getRoom_append_new (s : Store) (name : String) :
    getRoom (s ++ [⟨nextId s, name⟩]) (nextId s) = some ⟨nextId s, name⟩ := by
  unfold getRoom
  rw [List.find?_append, find?_id_eq_none fun r hr => Nat.ne_of_lt (lt_nextId_of_mem hr)]
  simp

lemma create_room_success (s : Store) (name : String)
    (hval : is_empty_or_whitespace name = false)
    (huniq : s.any (fun r => r.name == name) = false) :
    create_room s name = .ok (201, s ++ [⟨nextId s, name⟩], ⟨nextId s, name⟩) := by
  simp [create_room, hval, huniq]

/-! ### Claim theorems -/

/-- C3: for every string name that is empty or consists only of whitespace,
Create Room(name) fails with ValidationError (HTTP 422) and the store is
unchanged: no Room is persisted. -/
theorem create_blank_name_422 (s : Store) (name : String)
    (h : is_empty_or_whitespace name = true) :
    create_room s name =
      .error (.http 422 "Room name cannot be empty or whitespace") ∧
    applyOp s (.create name) = s := by
  constructor
  · simp [create_room, h]
  · simp [applyOp, create_room, h]

theorem create_blank_name_422_witness :
    is_empty_or_whitespace "   " = true ∧
    (create_room [⟨1, "Kitchen"⟩] "   " =
      .error (.http 422 "Room name cannot be empty or whitespace") ∧
     applyOp [⟨1, "Kitchen"⟩] (.create "   ") = [⟨1, "Kitchen"⟩]) :=
  ⟨by decide, create_blank_name_422 [⟨1, "Kitchen"⟩] "   " (by decide)⟩

/-- C2: for every name whose trimmed form is non-empty and that does not
collide with an existing Room, Create Room(name) succeeds with a freshly
assigned id, and Get Room on that id yields a Room whose name is exactly
the given name and whose id is the freshly assigned one. -/
theorem create_then_get (s : Store) (name : String)
    (hval : is_empty_or_whitespace name = false)
    (huniq : s.any (fun r => r.name == name) = false) :
    create_room s name =
      .ok (201, s ++ [⟨nextId s, name⟩], ⟨nextId s, name⟩) ∧
    read_room (s ++ [⟨nextId s, name⟩]) (nextId s) = .ok ⟨nextId s, name⟩ := by
  refine ⟨create_room_success s name hval huniq, ?_⟩
  rw [read_room, getRoom_append_new]

theorem create_then_get_witness :
    is_empty_or_whitespace "Laundry Room" = false ∧
    ([⟨1, "Kitchen"⟩] : Store).any (fun r => r.name == "Laundry Room") = false ∧
    (create_room [⟨1, "Kitchen"⟩] "Laundry Room" =
      .ok (201, [⟨1, "Kitchen"⟩, ⟨2, "Laundry Room"⟩], ⟨2, "Laundry Room"⟩) ∧
     read_room [⟨1, "Kitchen"⟩, ⟨2, "Laundry Room"⟩] 2 =
      .ok ⟨2, "Laundry Room"⟩) :=
  ⟨by decide, by decide, create_then_get [⟨1, "Kitchen"⟩] "Laundry Room" (by decide) (by decide)⟩

/-- C10: for every name whose trimmed form is non-empty, Create Room stores
the name verbatim, with no trimming: the uniqueness check compares exact
strings, so a name with surrounding whitespace is distinct from its
trimmed form, and the persisted record carries the name exactly as
given. -/
theorem create_stores_name_verbatim (s : Store) (name : String)
    (hval : is_empty_or_whitespace name = false)
    (huniq : s.any (fun r => r.name == name) = false) :
    ∃ r : Room, create_room s name = .ok (201, s ++ [r], r) ∧ r.name = name := by
  exact ⟨⟨nextId s, name⟩, create_room_success s name hval huniq, rfl⟩

theorem create_stores_name_verbatim_witness :
    is_empty_or_whitespace " Kitchen " = false ∧
    ([⟨1, "Kitchen"⟩] : Store).any (fun r => r.name == " Kitchen ") = false ∧
    (∃ r : Room, create_room [⟨1, "Kitchen"⟩] " Kitchen " =
      .ok (201, [⟨1, "Kitchen"⟩] ++ [r], r) ∧ r.name = " Kitchen ") :=
  ⟨by decide, by decide,
    create_stores_name_verbatim [⟨1, "Kitchen"⟩] " Kitchen " (by decide) (by decide)⟩

/-- C6: for every existing Room id, Update Room(id) with the name omitted
signals success (HTTP 204) and leaves the store — in particular the
stored Room's id and name — entirely unchanged. -/
theorem update_name_omitted_noop (s : Store) (room_id : Nat) (r : Room)
    (h : getRoom s room_id = some r) :
    update_room s room_id none = .ok (204, s) := by
  rw [update_room, h]

theorem update_name_omitted_noop_witness :
    getRoom [⟨1, "Drawing"⟩] 1 = some ⟨1, "Drawing"⟩ ∧
    update_room [⟨1, "Drawing"⟩] 1 none = .ok (204, [⟨1, "Drawing"⟩]) :=
  ⟨by decide, update_name_omitted_noop [⟨1, "Drawing"⟩] 1 ⟨1, "Drawing"⟩ (by decide)⟩

/-- C5: for every existing Room id, Update Room(id, name) with an empty or
whitespace-only name fails with ValidationError (HTTP 422) and the stored
record is left unchanged: both its id and its name are exactly as before
the call. -/
theorem update_blank_name_422 (s : Store) (room_id : Nat) (r : Room)
    (name : String) (h : getRoom s room_id = some r)
    (hb : is_empty_or_whitespace name = true) :
    update_room s room_id (some name) =
      .error (.http 422 "Room name cannot be empty or whitespace") ∧
    applyOp s (.update room_id (some name)) = s ∧
    getRoom s room_id = some r := by
  refine ⟨?_, ?_, h⟩
  · rw [update_room, h]; simp [hb]
  · rw [applyOp, update_room, h]; simp [hb]

theorem update_blank_name_422_witness :
    getRoom [⟨1, "Drawing"⟩] 1 = some ⟨1, "Drawing"⟩ ∧
    is_empty_or_whitespace "" = true ∧
    (update_room [⟨1, "Drawing"⟩] 1 (some "") =
      .error (.http 422 "Room name cannot be empty or whitespace") ∧
     applyOp [⟨1, "Drawing"⟩] (.update 1 (some "")) = [⟨1, "Drawing"⟩] ∧
     getRoom [⟨1, "Drawing"⟩] 1 = some ⟨1, "Drawing"⟩) :=
  ⟨by decide, by decide,
    update_blank_name_422 [⟨1, "Drawing"⟩] 1 ⟨1, "Drawing"⟩ "" (by decide) (by decide)⟩

/-- C7: for every existing Room id, Delete Room(id) succeeds (HTTP 204) and
removes exactly that record: a subsequent Get Room(id) fails with NotFound
(HTTP 404), and a record remains in the store iff it was there before and
its id differs from the deleted one. -/
theorem delete_removes_exactly (s : Store) (room_id : Nat) (r : Room)
    (h : getRoom s room_id = some r) :
    delete_room s room_id = .ok (204, s.filter (fun q => q.id != room_id)) ∧
    read_room (s.filter (fun q => q.id != room_id)) room_id =
      .error (.http 404 "Room not found") ∧
    ∀ q : Room, q ∈ s.filter (fun q => q.id != room_id) ↔
      (q ∈ s ∧ q.id ≠ room_id) := by
  refine ⟨by rw [delete_room, h], ?_, ?_⟩
  · rw [read_room, getRoom, find?_id_eq_none]
    intro q hq
    have := (List.mem_filter.mp hq).2
    simpa using this
  · intro q
    rw [List.mem_filter]
    simp

theorem delete_removes_exactly_witness :
    getRoom [⟨1, "Bathroom"⟩, ⟨2, "Kitchen"⟩] 1 = some ⟨1, "Bathroom"⟩ ∧
    (delete_room [⟨1, "Bathroom"⟩, ⟨2, "Kitchen"⟩] 1 =
      .ok (204, ([⟨1, "Bathroom"⟩, ⟨2, "Kitchen"⟩] : Store).filter
        (fun q => q.id != 1)) ∧
     read_room (([⟨1, "Bathroom"⟩, ⟨2, "Kitchen"⟩] : Store).filter
        (fun q => q.id != 1)) 1 = .error (.http 404 "Room not found") ∧
     ∀ q : Room, q ∈ ([⟨1, "Bathroom"⟩, ⟨2, "Kitchen"⟩] : Store).filter
        (fun q => q.id != 1) ↔
       (q ∈ ([⟨1, "Bathroom"⟩, ⟨2, "Kitchen"⟩] : Store) ∧ q.id ≠ 1)) :=
  ⟨by decide,
    delete_removes_exactly [⟨1, "Bathroom"⟩, ⟨2, "Kitchen"⟩] 1 ⟨1, "Bathroom"⟩ (by decide)⟩

lemma foldl_creates_names (names : List String) (s : Store)
    (h1 : ∀ n ∈ names, is_empty_or_whitespace n = false)
    (h2 : names.Nodup)
    (h3 : ∀ n ∈ names, s.any (fun r => r.name == n) = false) :
    (List.foldl applyOp s (names.map Op.create)).map Room.name
      = s.map Room.name ++ names := by
  induction names generalizing s with
  | nil => simp
  | cons n t ih =>
    have hv : is_empty_or_whitespace n = false := h1 n (List.mem_cons_self n t)
    have hu : s.any (fun r => r.name == n) = false := h3 n (List.mem_cons_self n t)
    have hstep : applyOp s (Op.create n) = s ++ [⟨nextId s, n⟩] := by
      rw [applyOp, create_room_success s n hv hu]
    have hnmem : n ∉ t := (List.nodup_cons.mp h2).1
    have h3' : ∀ m ∈ t,
        ((s ++ [⟨nextId s, n⟩]) : Store).any (fun r => r.name == m) = false := by
      intro m hm
      rw [List.any_append]
      have ha : s.any (fun r => r.name == m) = false :=
        h3 m (List.mem_cons_of_mem n hm)
      have hb : ([⟨nextId s, n⟩] : Store).any (fun r => r.name == m) = false := by
        simp only [List.any_cons, List.any_nil, Bool.or_false]
        have : n ≠ m := fun he => hnmem (he ▸ hm)
        simpa using this
      rw [ha, hb]
      rfl
    have ihh := ih (s ++ [({ id := nextId s, name := n } : Room)])
      (fun m hm => h1 m (List.mem_cons_of_mem n hm))
      (List.nodup_cons.mp h2).2 h3'
    rw [List.map_cons, List.foldl_cons, hstep, ihh]
    simp

/-- C4: List Rooms is a total function of the store (it never fails) and
returns all persisted Rooms in creation order: running any sequence of
successful creates from the empty store and listing yields the rooms'
names in exactly the order the creates were issued. -/
theorem read_rooms_creation_order (names : List String)
    (h1 : ∀ n ∈ names, is_empty_or_whitespace n = false)
    (h2 : names.Nodup) :
    (read_rooms (runOps (names.map Op.create))).map Room.name = names := by
  have h := foldl_creates_names names []
    h1 h2 (fun n _ => rfl)
  simpa [runOps, read_rooms] using h

theorem read_rooms_creation_order_witness :
    (∀ n ∈ ["Living Room", "Kitchen"], is_empty_or_whitespace n = false) ∧
    (["Living Room", "Kitchen"] : List String).Nodup ∧
    (read_rooms (runOps (["Living Room", "Kitchen"].map Op.create))).map Room.name
      = ["Living Room", "Kitchen"] :=
  ⟨by decide, by decide,
    read_rooms_creation_order ["Living Room", "Kitchen"] (by decide) (by decide)⟩

/-- Invariant of stores reachable through the service: every row's name
passes validation, names are pairwise distinct (the unique index on
`name`), and ids strictly increase along the table (rowid order). -/
def StoreInv (s : Store) : Prop :=
  (∀ r ∈ s, is_empty_or_whitespace r.name = false) ∧
  List.Pairwise (fun a b => a.name ≠ b.name) s ∧
  List.Pairwise (fun a b => a.id < b.id) s

lemma storeInv_nil : StoreInv [] :=
  ⟨fun r h => absurd h (List.not_mem_nil r), List.Pairwise.nil, List.Pairwise.nil⟩

lemma storeInv_append_new {s : Store} (h : StoreInv s) {name : String}
    (hval : is_empty_or_whitespace name = false)
    (huniq : s.any (fun r => r.name == name) = false) :
    StoreInv (s ++ [⟨nextId s, name⟩]) := by
  obtain ⟨hn, hpn, hpi⟩ := h
  have huniq' : ∀ r ∈ s, r.name ≠ name := by
    intro r hr
    have h2 := List.any_eq_false.mp huniq r hr
    simpa using h2
  refine ⟨?_, ?_, ?_⟩
  · intro r hr
    rcases List.mem_append.mp hr with h' | h'
    · exact hn r h'
    · have he : r = ⟨nextId s, name⟩ := by simpa using h'
      rw [he]
      exact hval
  · rw [List.pairwise_append]
    refine ⟨hpn, List.pairwise_singleton _ _, ?_⟩
    intro a ha b hb
    have he : b = ⟨nextId s, name⟩ := by simpa using hb
    rw [he]
    exact huniq' a ha
  · rw [List.pairwise_append]
    refine ⟨hpi, List.pairwise_singleton _ _, ?_⟩
    intro a ha b hb
    have he : b = ⟨nextId s, name⟩ := by simpa using hb
    rw [he]
    exact lt_nextId_of_mem ha

lemma storeInv_update_map {s : Store} (h : StoreInv s) {room_id : Nat}
    {n : String} (hval : is_empty_or_whitespace n = false)
    (hcol : s.any (fun r => r.name == n && r.id != room_id) = false) :
    StoreInv (s.map (fun r =>
      if r.id == room_id then { r with name := n } else r)) := by
  obtain ⟨hn, hpn, hpi⟩ := h
  have hcol' : ∀ r ∈ s, r.name = n → r.id = room_id := by
    intro r hr he
    have h2 := List.any_eq_false.mp hcol r hr
    simp [he] at h2
    exact h2
  have hid : ∀ r : Room,
      (if r.id == room_id then ({ r with name := n } : Room) else r).id
        = r.id := by
    intro r
    by_cases hc : (r.id == room_id) = true <;> simp [hc]
  refine ⟨?_, ?_, ?_⟩
  · intro r' hr'
    obtain ⟨r, hr, rfl⟩ := List.mem_map.mp hr'
    by_cases hc : (r.id == room_id) = true
    · simpa [hc] using hval
    · simpa [hc] using hn r hr
  · rw [List.pairwise_map]
    refine (hpn.and hpi).imp_of_mem ?_
    intro a b ha hb hab
    obtain ⟨hne, hlt⟩ := hab
    by_cases hca : (a.id == room_id) = true <;>
      by_cases hcb : (b.id == room_id) = true
    · exfalso
      have ha' : a.id = room_id := by simpa using hca
      have hb' : b.id = room_id := by simpa using hcb
      rw [ha', hb'] at hlt
      exact lt_irrefl _ hlt
    · simp only [hca, hcb, if_pos, if_neg, Bool.false_eq_true, if_false, if_true]
      intro heq
      have hbid : b.id = room_id := hcol' b hb heq.symm
      have : (b.id == room_id) = true := by simpa using hbid
      rw [this] at hcb
      exact hcb rfl
    · simp only [hca, hcb, Bool.false_eq_true, if_false, if_true]
      intro heq
      have haid : a.id = room_id := hcol' a ha heq
      have : (a.id == room_id) = true := by simpa using haid
      rw [this] at hca
      exact hca rfl
    · simpa [hca, hcb] using hne
  · rw [List.pairwise_map]
    refine hpi.imp ?_
    intro a b hlt
    rw [hid a, hid b]
    exact hlt

lemma storeInv_filter {s : Store} (h : StoreInv s) (p : Room → Bool) :
    StoreInv (s.filter p) := by
  obtain ⟨hn, hpn, hpi⟩ := h
  exact ⟨fun r hr => hn r (List.mem_filter.mp hr).1, hpn.filter p, hpi.filter p⟩

lemma storeInv_applyOp {s : Store} (h : StoreInv s) (op : Op) :
    StoreInv (applyOp s op) := by
  cases op with
  | get _ => exact h
  | list => exact h
  | create name =>
    by_cases hval : is_empty_or_whitespace name = true
    · simpa [applyOp, create_room, hval] using h
    · have hval' : is_empty_or_whitespace name = false := by simpa using hval
      by_cases hdup : s.any (fun r => r.name == name) = true
      · simpa [applyOp, create_room, hval', hdup] using h
      · have hdup' : s.any (fun r => r.name == name) = false := by
          simpa using hdup
        have hc := create_room_success s name hval' hdup'
        simp only [applyOp, hc]
        exact storeInv_append_new h hval' hdup'
  | update room_id name =>
    cases hget : getRoom s room_id with
    | none => simpa [applyOp, update_room, hget] using h
    | some r =>
      cases name with
      | none => simpa [applyOp, update_room, hget] using h
      | some n =>
        by_cases hval : is_empty_or_whitespace n = true
        · simpa [applyOp, update_room, hget, hval] using h
        · have hval' : is_empty_or_whitespace n = false := by simpa using hval
          by_cases hcol :
              s.any (fun r2 => r2.name == n && r2.id != room_id) = true
          · simpa [applyOp, update_room, hget, hval', hcol] using h
          · have hcol' :
                s.any (fun r2 => r2.name == n && r2.id != room_id) = false := by
              simpa using hcol
            simp only [applyOp, update_room, hget, hval', hcol', Bool.false_eq_true,
              if_false]
            exact storeInv_update_map h hval' hcol'
  | delete room_id =>
    cases hget : getRoom s room_id with
    | none => simpa [applyOp, delete_room, hget] using h
    | some r =>
      simp only [applyOp, delete_room, hget]
      exact storeInv_filter h _

lemma storeInv_foldl {s : Store} (h : StoreInv s) (ops : List Op) :
    StoreInv (List.foldl applyOp s ops) := by
  induction ops generalizing s with
  | nil => exact h
  | cons op t ih => exact ih (storeInv_applyOp h op)

/-- C8: in every state reachable through the five service operations
(starting from the empty store), every persisted Room has a name whose
trimmed form is non-empty, and no two persisted Rooms share the same
name. -/
theorem reachable_store_invariant (ops : List Op) :
    (∀ r ∈ runOps ops, is_empty_or_whitespace r.name = false) ∧
    List.Pairwise (fun a b => a.name ≠ b.name) (runOps ops) := by
  have h := storeInv_foldl storeInv_nil ops
  exact ⟨h.1, h.2.1⟩

/-- C1, counterexample: with `[⟨1, "Kitchen"⟩]` persisted, Create
Room("Kitchen") does not fail with a mapped ConflictError (HTTP 409): the
handler catches nothing, so the result is the raw storage
`IntegrityError`. -/
theorem create_duplicate_not_409 :
    create_room [⟨1, "Kitchen"⟩] "Kitchen" = .error .integrityError ∧
    isConflict409 (create_room [⟨1, "Kitchen"⟩] "Kitchen") = false := by
  decide

/-- C1, amended: for every state in which a Room with a given (validation-
passing) name already exists, Create Room with that same name fails with
the storage layer's uniqueness `IntegrityError`, which the handler leaves
unmapped (in particular it is not a ConflictError/HTTP 409), and no new
Room is persisted. -/
theorem create_duplicate_integrityError (s : Store) (name : String)
    (r : Room) (hmem : r ∈ s) (hname : r.name = name)
    (hval : is_empty_or_whitespace name = false) :
    create_room s name = .error .integrityError ∧
    isConflict409 (create_room s name) = false ∧
    applyOp s (.create name) = s := by
  have hdup : s.any (fun r2 => r2.name == name) = true :=
    List.any_eq_true.mpr ⟨r, hmem, by simp [hname]⟩
  refine ⟨?_, ?_, ?_⟩
  · simp [create_room, hval, hdup]
  · simp [isConflict409, create_room, hval, hdup]
  · simp [applyOp, create_room, hval, hdup]

theorem create_duplicate_integrityError_witness :
    (⟨1, "Kitchen"⟩ : Room) ∈ ([⟨1, "Kitchen"⟩] : Store) ∧
    (⟨1, "Kitchen"⟩ : Room).name = "Kitchen" ∧
    is_empty_or_whitespace "Kitchen" = false ∧
    (create_room [⟨1, "Kitchen"⟩] "Kitchen" = .error .integrityError ∧
     isConflict409 (create_room [⟨1, "Kitchen"⟩] "Kitchen") = false ∧
     applyOp [⟨1, "Kitchen"⟩] (.create "Kitchen") = [⟨1, "Kitchen"⟩]) :=
  ⟨List.mem_cons_self _ _, rfl, by decide,
    create_duplicate_integrityError [⟨1, "Kitchen"⟩] "Kitchen" ⟨1, "Kitchen"⟩
      (List.mem_cons_self _ _) rfl (by decide)⟩

/-- C9, counterexample: ids are reused after deletion.  Creating "A" and
"B" assigns ids 1 and 2; deleting Room 2 and creating "C" assigns id 2
again, because SQLite picks one more than the largest rowid still in
use. -/
theorem deleted_id_reused :
    runOps [Op.create "A", Op.create "B"] = [⟨1, "A"⟩, ⟨2, "B"⟩] ∧
    runOps [Op.create "A", Op.create "B", Op.delete 2] = [⟨1, "A"⟩] ∧
    runOps [Op.create "A", Op.create "B", Op.delete 2, Op.create "C"]
      = [⟨1, "A"⟩, ⟨2, "C"⟩] := by
  decide

/-- C9, amended: a successful Create assigns the id `maxId s + 1`, one
more than the largest currently persisted id — strictly greater than
every persisted Room's id.  Hence an id below the current maximum is never
reassigned, but the id of a deleted Room that exceeded all surviving ids
is reused by the next create. -/
theorem create_id_is_max_plus_one (s : Store) (name : String)
    (st : Nat) (s' : Store) (r : Room)
    (h : create_room s name = .ok (st, s', r)) :
    r.id = maxId s + 1 ∧ ∀ q ∈ s, q.id < r.id := by
  by_cases hval : is_empty_or_whitespace name = true
  · simp [create_room, hval] at h
  · have hval' : is_empty_or_whitespace name = false := by simpa using hval
    by_cases hdup : s.any (fun r2 => r2.name == name) = true
    · simp [create_room, hval', hdup] at h
    · have hdup' : s.any (fun r2 => r2.name == name) = false := by simpa using hdup
      rw [create_room_success s name hval' hdup'] at h
      have hr : r = ⟨nextId s, name⟩ := by
        have := (Prod.mk.injEq _ _ _ _).mp (Except.ok.inj h)
        exact ((Prod.mk.injEq _ _ _ _).mp this.2).2.symm
      rw [hr]
      exact ⟨rfl, fun q hq => lt_nextId_of_mem hq⟩

theorem create_id_is_max_plus_one_witness :
    create_room [⟨1, "A"⟩] "B" = .ok (201, [⟨1, "A"⟩, ⟨2, "B"⟩], ⟨2, "B"⟩) ∧
    ((⟨2, "B"⟩ : Room).id = maxId [⟨1, "A"⟩] + 1 ∧
     ∀ q ∈ ([⟨1, "A"⟩] : Store), q.id < (⟨2, "B"⟩ : Room).id) :=
  ⟨by decide,
    create_id_is_max_plus_one [⟨1, "A"⟩] "B" 201 [⟨1, "A"⟩, ⟨2, "B"⟩] ⟨2, "B"⟩
      (by decide)⟩
